import Mathlib

/-!
Formal model of the realtime audio-analysis backend (`backend/app`).

Each Python class whose behaviour the specification describes is shallowly
embedded as a Lean structure together with executable functions that mirror
its methods statement by statement.  Effects are made explicit:

* `asyncio` locks and events are dropped — every mutating method is modelled
  as a pure state transformer, which matches the single-threaded cooperative
  scheduling model of the code (each critical section is one atomic step);
* network calls (LLM chat, STT connect/disconnect, websocket sends) are
  modelled as oracle parameters of type `Except`/`Bool` describing the
  outcome of the one call the method performs;
* a Python method that raises is modelled as returning the same value the
  surrounding `try/except` converts the exception into;
* `numpy` arrays of samples are modelled as `List Int` (the element values
  are never inspected by the code being modelled), `datetime.now()` is an
  explicit `now : Nat` argument, floats that are only stored and compared
  (confidence, temperature) are `ℚ`.
-/

/-- Last `m` elements of a list, in order.  This is the characterisation of a
Python `deque(maxlen=m)` after bulk appends, and of `list[-m:]` slicing. -/
def lastN (m : Nat) (l : List α) : List α :=
  l.drop (l.length - m)

/-! ## Audio ring buffer (`app/core/audio/buffer.py`, class `AudioBuffer`)

`buffer_size = int(sample_rate * buffer_duration)` and
`chunk_size = int(sample_rate * chunk_duration)` are computed once in
`__init__`; the model starts from those integers together with `channels`.
A chunk is modelled as the flat list of its samples (the
`reshape(-1, channels)` step only reshapes, never reorders), but the
reshape's failure mode is kept: `numpy` raises `ValueError` from
`reshape(-1, channels)` unless `channels` is positive and divides the
element count. -/

structure AudioBuffer where
  bufferSize : Nat
  chunkSize : Nat
  channels : Nat
  data : List Int
deriving DecidableEq

/-- Constructor state: `deque(maxlen=buffer_size)` starts empty. -/
def AudioBuffer.fresh (bufferSize chunkSize channels : Nat) : AudioBuffer :=
  ⟨bufferSize, chunkSize, channels, []⟩

/-- One `self.buffer.append(sample)` on a `deque(maxlen=bufferSize)`:
append on the right, dropping the leftmost element when full. -/
def AudioBuffer.pushSample (s : AudioBuffer) (x : Int) : AudioBuffer :=
  { s with data := lastN s.bufferSize (s.data ++ [x]) }

/-- `AudioBuffer.write`: appends every sample of the (flattened) input in
order, one `deque.append` at a time. -/
def AudioBuffer.write (s : AudioBuffer) (xs : List Int) : AudioBuffer :=
  xs.foldl AudioBuffer.pushSample s

/-- `AudioBuffer.read_chunk`: `None` when fewer than `chunk_size` samples
are buffered; otherwise the oldest `chunk_size` samples are popped
(`popleft` repeated `chunk_size` times) and then reshaped.  The pops happen
first, so the buffer state is advanced even when the trailing
`chunk.reshape(-1, self.channels)` raises `ValueError` — which it does
exactly when `channels` is zero or does not divide `chunk_size`
(`Except.error` models the raise propagating to the caller). -/
def AudioBuffer.readChunk (s : AudioBuffer) :
    Option (Except String (List Int) × AudioBuffer) :=
  if s.data.length < s.chunkSize then none
  else
    let chunk := s.data.take s.chunkSize
    let s' := { s with data := s.data.drop s.chunkSize }
    if 0 < s.channels ∧ s.chunkSize % s.channels = 0 then some (Except.ok chunk, s')
    else some (Except.error "cannot reshape", s')

/-- `AudioBuffer.clear`: empties the deque. -/
def AudioBuffer.clearBuf (s : AudioBuffer) : AudioBuffer :=
  { s with data := [] }

/-- `AudioBuffer.get_buffer_level` is `len(self.buffer) / self.buffer_size`;
with `buffer_size = 0` the Python division raises `ZeroDivisionError`, which
is modelled as `none`. -/
def AudioBuffer.getBufferLevel (s : AudioBuffer) : Option ℚ :=
  if s.bufferSize = 0 then none
  else some ((s.data.length : ℚ) / (s.bufferSize : ℚ))

/-- The operations a client can interleave on one buffer. -/
inductive BufferOp where
  | write (xs : List Int)
  | readChunk
  | clear
deriving DecidableEq

/-- Applies one operation, discarding any returned chunk; a raising
`read_chunk` still leaves its popped state behind. -/
def AudioBuffer.applyOp (s : AudioBuffer) : BufferOp → AudioBuffer
  | .write xs => s.write xs
  | .readChunk =>
    match s.readChunk with
    | none => s
    | some (_, s') => s'
  | .clear => s.clearBuf

/-- Runs a sequence of buffer operations. -/
def AudioBuffer.runOps (s : AudioBuffer) (ops : List BufferOp) : AudioBuffer :=
  ops.foldl AudioBuffer.applyOp s

/-- Drains `read_chunk` repeatedly until it reports not-ready (the loop of
`stream_chunks`), collecting the yielded chunks in drain order; a raised
`ValueError` aborts the loop and is recorded in the third component.
`fuel` bounds the number of drains; any `fuel ≥ data.length` is exhaustive
because a successful drain removes at least one sample (when
`chunkSize > 0`). -/
def AudioBuffer.drainChunks : Nat → AudioBuffer → List (List Int) × AudioBuffer × Option String
  | 0, s => ([], s, none)
  | fuel + 1, s =>
    match s.readChunk with
    | none => ([], s, none)
    | some (Except.ok c, s') =>
      let r := AudioBuffer.drainChunks fuel s'
      (c :: r.1, r.2.1, r.2.2)
    | some (Except.error e, s') => ([], s', some e)

/-! ## Websocket broadcast manager (`app/api/websocket/manager.py`,
class `ConnectionManager`)

An observer handle (a `WebSocket` object) is modelled as a `Nat`; Python
`in`/`remove` compare handles by identity, matching `Nat` equality.  The
outcome of one `send_json` delivery attempt to a connection is given by an
oracle `fails : Nat → Bool` (`true` means the send raises). -/

structure ConnectionManager where
  activeConnections : List Nat
deriving DecidableEq

/-- Constructor: empty registry. -/
def ConnectionManager.init : ConnectionManager := ⟨[]⟩

/-- `ConnectionManager.connect`: `accept` is the transport's job (modelled as
succeeding); the handle is then appended to `active_connections`
unconditionally. -/
def ConnectionManager.connect (s : ConnectionManager) (ws : Nat) : ConnectionManager :=
  ⟨s.activeConnections ++ [ws]⟩

/-- `ConnectionManager.disconnect`: removes the first occurrence of the
handle if present (`list.remove` guarded by `in`). -/
def ConnectionManager.disconnect (s : ConnectionManager) (ws : Nat) : ConnectionManager :=
  if ws ∈ s.activeConnections then ⟨s.activeConnections.erase ws⟩ else s

/-- `ConnectionManager.get_connection_count`. -/
def ConnectionManager.getConnectionCount (s : ConnectionManager) : Nat :=
  s.activeConnections.length

/-- `ConnectionManager.broadcast`: iterates over `active_connections`
attempting one delivery each, collects the connections whose delivery raised
into `disconnected`, and only after the loop calls `disconnect` on each of
them.  Returns the list of connections a delivery was attempted on (in
iteration order) and the final registry state. -/
def ConnectionManager.broadcast (fails : Nat → Bool) (s : ConnectionManager) :
    List Nat × ConnectionManager :=
  let disconnected := s.activeConnections.filter fails
  (s.activeConnections, disconnected.foldl ConnectionManager.disconnect s)

/-- Registry operations available to clients of the manager. -/
inductive ManagerOp where
  | connect (h : Nat)
  | disconnect (h : Nat)
deriving DecidableEq

/-- Applies one registry operation. -/
def ConnectionManager.applyOp (s : ConnectionManager) : ManagerOp → ConnectionManager
  | .connect h => s.connect h
  | .disconnect h => s.disconnect h

/-- Runs a sequence of registry operations. -/
def ConnectionManager.runOps (s : ConnectionManager) (ops : List ManagerOp) :
    ConnectionManager :=
  ops.foldl ConnectionManager.applyOp s

/-- Checks that every `connect` in the sequence registers a handle that is
not currently in the registry at the moment it is connected. -/
def ConnectionManager.freshOps (s : ConnectionManager) : List ManagerOp → Bool
  | [] => true
  | .connect h :: rest =>
    !(s.activeConnections.contains h) && ConnectionManager.freshOps (s.connect h) rest
  | .disconnect h :: rest => ConnectionManager.freshOps (s.disconnect h) rest

/-! ## Conversation analyzer (`app/core/analysis/conversation.py`,
class `ConversationAnalyzer`)

`speaker_patterns` is initialised but never read or written again anywhere
in the repository, so it is omitted from the state.  `datetime.now()` is an
explicit `now` argument to `add_turn`. -/

/-- The `Literal["user", "other"]` speaker tag. -/
inductive Speaker where
  | user
  | other
deriving DecidableEq

/-- The `ConversationTurn` dataclass. -/
structure ConversationTurn where
  speaker : Speaker
  text : String
  timestamp : Nat
  confidence : ℚ
deriving DecidableEq

/-- The mutable analyzer state (`__init__`). -/
structure ConversationAnalyzer where
  maxHistory : Nat
  conversationHistory : List ConversationTurn
  currentSpeaker : Option Speaker
deriving DecidableEq

/-- `ConversationAnalyzer(max_history)`: empty history, no current speaker. -/
def ConversationAnalyzer.init (maxHistory : Nat) : ConversationAnalyzer :=
  ⟨maxHistory, [], none⟩

/-- `ConversationAnalyzer._identify_speaker`: `other` on empty history,
otherwise the speaker different from the last turn's speaker. -/
def ConversationAnalyzer.identifySpeaker (s : ConversationAnalyzer) : Speaker :=
  match s.conversationHistory.getLast? with
  | none => .other
  | some t => if t.speaker = .other then .user else .other

/-- `ConversationAnalyzer.add_turn`: resolves an omitted speaker through
`_identify_speaker`, appends the new turn, pops the oldest turn (`pop(0)`)
when the history length exceeds `max_history`, updates `current_speaker`,
and returns the created turn. -/
def ConversationAnalyzer.addTurn (s : ConversationAnalyzer) (text : String)
    (speaker : Option Speaker) (confidence : ℚ) (now : Nat) :
    ConversationTurn × ConversationAnalyzer :=
  let sp := speaker.getD s.identifySpeaker
  let turn : ConversationTurn := ⟨sp, text, now, confidence⟩
  let h1 := s.conversationHistory ++ [turn]
  let h2 := if s.maxHistory < h1.length then h1.drop 1 else h1
  (turn, { s with conversationHistory := h2, currentSpeaker := some sp })

/-- One `add_turn` call with all of its arguments. -/
structure TurnOp where
  text : String
  speaker : Option Speaker
  confidence : ℚ
  now : Nat
deriving DecidableEq

/-- Runs a sequence of `add_turn` calls, collecting the created turns in
creation order next to the final analyzer state. -/
def ConversationAnalyzer.addTurns (s : ConversationAnalyzer) :
    List TurnOp → List ConversationTurn × ConversationAnalyzer
  | [] => ([], s)
  | op :: rest =>
    let r := s.addTurn op.text op.speaker op.confidence op.now
    let rec' := ConversationAnalyzer.addTurns r.2 rest
    (r.1 :: rec'.1, rec'.2)

/-- Runs a sequence of `add_turn(text)` calls that all omit the speaker
(default `confidence=1.0`; the clock is immaterial and fixed at 0),
returning the created turns. -/
def ConversationAnalyzer.addTurnsNoSpeaker (s : ConversationAnalyzer)
    (texts : List String) : List ConversationTurn :=
  (s.addTurns (texts.map fun t => ⟨t, none, 1, 0⟩)).1

/-- Decides that no two consecutive entries of a speaker list are equal. -/
def noConsecutiveRepeat : List Speaker → Bool
  | a :: b :: r => a != b && noConsecutiveRepeat (b :: r)
  | _ => true

/-- `ConversationAnalyzer.get_recent_history(n)` is `history[-n:]`; for
`n = 0` the Python slice `[-0:]` is the whole list. -/
def ConversationAnalyzer.getRecentHistory (s : ConversationAnalyzer) (n : Nat) :
    List ConversationTurn :=
  if n = 0 then s.conversationHistory
  else s.conversationHistory.drop (s.conversationHistory.length - n)

/-- `ConversationAnalyzer.get_context_text(n)`: each recent turn rendered as
"label: text" with label `我` for `user` and `对方` for `other`, joined by
newlines. -/
def ConversationAnalyzer.getContextText (s : ConversationAnalyzer) (n : Nat) : String :=
  String.intercalate "\n"
    ((s.getRecentHistory n).map fun t =>
      (if t.speaker = .user then "我" else "对方") ++ ": " ++ t.text)

/-! ## Suggestion generator (`app/core/analysis/suggestions.py`,
class `SuggestionGenerator`)

The LLM network call `self.llm_client.chat(messages)` is the one external
effect; it is modelled as an oracle `chatFn : List Message → Except String
String` returning either the response content or the raised error.  The
result of `generate_suggestion` is paired with the number of chat calls the
run performed, so that call-count properties can be stated. -/

/-- The `Message` class of `app/core/llm/base.py`. -/
structure Message where
  role : String
  content : String
deriving DecidableEq

/-- The `scenario_config` dictionary, restricted to the keys the generator
reads (`ai_role`, `user_goal`, `context`, and `name` used only in logs);
`none` models an absent key, so `dict.get(key, default)` is `Option.getD`. -/
structure ScenarioConfig where
  aiRole : Option String
  userGoal : Option String
  background : Option String
  name : Option String
deriving DecidableEq

/-- A decoded JSON value, as `json.loads` would produce it.  A number is
kept as its literal text (including the `NaN`/`Infinity` constants the
Python decoder accepts): the program stores such values but never computes
with them. -/
inductive JsonVal where
  | str (s : String)
  | num (lit : String)
  | bool (b : Bool)
  | null
  | arr (elems : List JsonVal)
  | obj (fields : List (String × JsonVal))

/-- Whether the value is a Python `str`. -/
def JsonVal.isStr : JsonVal → Bool
  | .str _ => true
  | _ => false

/-- Whether Python slicing `value[:50]` succeeds on the value: it does on
`str` and `list`, and raises `TypeError` on `int`/`float`/`bool`/`None`/
`dict`. -/
def JsonVal.sliceable : JsonVal → Bool
  | .str _ => true
  | .arr _ => true
  | _ => false

/-- Python `value += text` for the line-scan accumulator; its values are
always `str` (they start as `""` and only string concatenation is ever
applied), so the non-string branch is unreachable there. -/
def JsonVal.strAppend : JsonVal → String → JsonVal
  | .str s, t => .str (s ++ t)
  | v, _ => v

/-- The suggestion dictionary: keys `intent`, `thoughts`, `real_need`,
`suggested_reply`.  The values come either from the line-scan fallback
(always strings) or from `data.get(...)` on a decoded JSON object (any
JSON value), so the fields hold `JsonVal`. -/
structure Suggestion where
  intent : JsonVal
  thoughts : JsonVal
  realNeed : JsonVal
  suggestedReply : JsonVal

/-- Checks that all four fields of a suggestion are strings. -/
def strSuggestion (r : Suggestion) : Bool :=
  r.intent.isStr && r.thoughts.isStr && r.realNeed.isStr && r.suggestedReply.isStr

/-- Checks that all four fields of a suggestion are the empty string. -/
def suggestionAllEmptyStr (r : Suggestion) : Bool :=
  match r with
  | ⟨.str a, .str b, .str c, .str d⟩ => a == "" && b == "" && c == "" && d == ""
  | _ => false

/-- `SuggestionGenerator._empty_suggestion`: the fixed "insufficient
context" suggestion. -/
def emptySuggestion : Suggestion :=
  ⟨.str "无法分析", .str "对话上下文不足", .str "需要更多信息",
    .str "请继续对话以获取更多信息"⟩

/-- `SuggestionGenerator._default_analysis_prompt`. -/
def defaultAnalysisPrompt : String :=
  "基于对话内容，分析对方的：\n1. 真实目的\n2. 潜在顾虑\n3. 决策因素\n并给出建议回复"

/-- The generator's configuration state (`__init__`): an LLM client is held
but its network behaviour lives in the `chatFn` oracle. -/
structure SuggestionGenerator where
  scenarioConfig : ScenarioConfig
  analysisPrompt : String
deriving DecidableEq

/-- `SuggestionGenerator._build_system_prompt`: role and goal from the
scenario configuration with their defaults, background appended only when
it is a non-empty string (Python truthiness), then the fixed task line. -/
def buildSystemPrompt (cfg : ScenarioConfig) : String :=
  let aiRole := cfg.aiRole.getD "你是一个专业的对话助手"
  let userGoal := cfg.userGoal.getD "进行有效的沟通"
  let ctx := cfg.background.getD ""
  aiRole ++ "\n\n用户目标：" ++ userGoal ++
    (if ctx = "" then "" else "\n\n场景背景：" ++ ctx) ++
    "\n\n你的任务是分析对话，理解对方的真实意图和需求，并为用户提供有效的回复建议。"

/-- `SuggestionGenerator._build_analysis_messages`: one system message and
one user message embedding the context, the analysis prompt, and the JSON
format request. -/
def buildAnalysisMessages (g : SuggestionGenerator) (context : String) : List Message :=
  [⟨"system", buildSystemPrompt g.scenarioConfig⟩,
   ⟨"user",
    "当前对话内容：\n" ++ context ++ "\n\n" ++ g.analysisPrompt ++
      "\n\n请以 JSON 格式返回分析结果：\n\x7b\n  \"intent\": \"对方的意图\",\n  \"thoughts\": \"你的思考过程\",\n  \"real_need\": \"对方的真实需求\",\n  \"suggested_reply\": \"建议的回复内容\"\n\x7d"⟩]

/-- Scanner for one attempt of the pattern
`\x7b[^\x7b\x7d]*(?:\x7b[^\x7b\x7d]*\x7d[^\x7b\x7d]*)*\x7d` starting just
after an opening brace: tracks whether the scan is at nesting depth 1 or 2,
succeeds at the first depth-1 closing brace, and fails at an opening brace
at depth 2 or at end of input (the pattern admits no deeper nesting and no
backtracking can recover from either failure). -/
def jsonScan : List Char → List Char → Nat → Option (List Char)
  | [], _, _ => none
  | c :: cs, acc, d =>
    if c = '\x7d' then
      if d = 1 then some ((c :: acc).reverse) else jsonScan cs (c :: acc) 1
    else if c = '\x7b' then
      if d = 1 then jsonScan cs (c :: acc) 2 else none
    else jsonScan cs (c :: acc) d

/-- Leftmost-match search of the regular expression in
`SuggestionGenerator._parse_response` (`re.search`): tries each position in
reading order; only an opening brace can start a match. -/
def jsonSearch : List Char → Option (List Char)
  | [] => none
  | c :: rest =>
    if c = '\x7b' then
      match jsonScan rest ['\x7b'] 1 with
      | some m => some m
      | none => jsonSearch rest
    else jsonSearch rest

/-- `re.search(r'...', content)` returning the matched substring, if any. -/
def findJson (content : String) : Option String :=
  (jsonSearch content.toList).map fun cs => ⟨cs⟩

/-- JSON whitespace skipping for the embedded `json.loads`. -/
def skipWs (cs : List Char) : List Char :=
  cs.dropWhile fun c => c = ' ' || c = '\n' || c = '\t' || c = '\r'

/-- Value of one hexadecimal digit, for `\\uXXXX` escapes. -/
def hexDigitVal (c : Char) : Option Nat :=
  let n := c.toNat
  if 48 ≤ n && n ≤ 57 then some (n - 48)
  else if 97 ≤ n && n ≤ 102 then some (n - 87)
  else if 65 ≤ n && n ≤ 70 then some (n - 55)
  else none

/-- Reads the body of a JSON string literal up to its closing quote (the
opening quote already consumed), decoding the escape sequences the way the
Python decoder does in its default strict mode: the named escapes,
`\\uXXXX` (with surrogate pairs combined), and a raise on an unescaped
control character or invalid escape.  One divergence is forced by the
target: Python accepts an escaped lone surrogate and produces a string no
sequence of Unicode scalar values (a Lean `String`) can represent; the
model maps that to a decode failure.  `fuel` at least the input length is
exhaustive since every step consumes at least one character. -/
def jsonStringBody : Nat → List Char → List Char → Option (List Char × List Char)
  | 0, _, _ => none
  | fuel + 1, acc, cs =>
    match cs with
    | [] => none
    | '"' :: rest => some (acc.reverse, rest)
    | '\\' :: rest =>
      match rest with
      | [] => none
      | e :: rest2 =>
        if e = '"' then jsonStringBody fuel ('"' :: acc) rest2
        else if e = '\\' then jsonStringBody fuel ('\\' :: acc) rest2
        else if e = '/' then jsonStringBody fuel ('/' :: acc) rest2
        else if e = 'b' then jsonStringBody fuel ('\x08' :: acc) rest2
        else if e = 'f' then jsonStringBody fuel ('\x0c' :: acc) rest2
        else if e = 'n' then jsonStringBody fuel ('\n' :: acc) rest2
        else if e = 'r' then jsonStringBody fuel ('\r' :: acc) rest2
        else if e = 't' then jsonStringBody fuel ('\t' :: acc) rest2
        else if e = 'u' then
          match rest2 with
          | h1 :: h2 :: h3 :: h4 :: rest3 =>
            match hexDigitVal h1, hexDigitVal h2, hexDigitVal h3, hexDigitVal h4 with
            | some a, some b, some c, some d =>
              let v := ((a * 16 + b) * 16 + c) * 16 + d
              if 0xd800 ≤ v ∧ v ≤ 0xdbff then
                match rest3 with
                | '\\' :: 'u' :: g1 :: g2 :: g3 :: g4 :: rest4 =>
                  match hexDigitVal g1, hexDigitVal g2, hexDigitVal g3, hexDigitVal g4 with
                  | some a2, some b2, some c2, some d2 =>
                    let w := ((a2 * 16 + b2) * 16 + c2) * 16 + d2
                    if 0xdc00 ≤ w ∧ w ≤ 0xdfff then
                      jsonStringBody fuel
                        (Char.ofNat (0x10000 + (v - 0xd800) * 0x400 + (w - 0xdc00)) :: acc)
                        rest4
                    else none
                  | _, _, _, _ => none
                | _ => none
              else if 0xdc00 ≤ v ∧ v ≤ 0xdfff then none
              else jsonStringBody fuel (Char.ofNat v :: acc) rest3
            | _, _, _, _ => none
          | _ => none
        else none
    | c :: rest =>
      if c.toNat < 32 then none
      else jsonStringBody fuel (c :: acc) rest

/-- ASCII digit test. -/
def isDig (c : Char) : Bool :=
  48 ≤ c.toNat && c.toNat ≤ 57

/-- Reads one JSON number literal (sign, integer part with no leading
zero, optional fraction and exponent), returning its text; a malformed
number means the decode raises, as in the Python decoder. -/
def jsonNumberLit (cs : List Char) : Option (List Char × List Char) :=
  let signPart : List Char × List Char :=
    match cs with
    | '-' :: r => (['-'], r)
    | _ => ([], cs)
  match signPart.2 with
  | [] => none
  | c :: r =>
    if !(isDig c) then none
    else
      let intPart : List Char × List Char :=
        if c = '0' then (['0'], r)
        else (signPart.2.takeWhile isDig, signPart.2.dropWhile isDig)
      let fracPart : Option (List Char × List Char) :=
        match intPart.2 with
        | '.' :: r2 =>
          let ds := r2.takeWhile isDig
          if ds.isEmpty then none else some ('.' :: ds, r2.dropWhile isDig)
        | _ => some ([], intPart.2)
      match fracPart with
      | none => none
      | some (frac, r3) =>
        let expPart : Option (List Char × List Char) :=
          match r3 with
          | e :: r4 =>
            if e = 'e' || e = 'E' then
              let signExp : List Char × List Char :=
                match r4 with
                | s :: r5 => if s = '+' || s = '-' then ([s], r5) else ([], r4)
                | [] => ([], r4)
              let ds := signExp.2.takeWhile isDig
              if ds.isEmpty then none
              else some (e :: (signExp.1 ++ ds), signExp.2.dropWhile isDig)
            else some ([], r3)
          | [] => some ([], r3)
        match expPart with
        | none => none
        | some (ex, r6) => some (signPart.1 ++ intPart.1 ++ frac ++ ex, r6)

mutual

/-- One JSON value, after the whitespace skip: string, object, array, the
three keyword constants, the non-standard constants the Python decoder
accepts by default (`NaN`, `Infinity`, `-Infinity`), or a number.  `fuel`
bounds the recursion; every recursive call follows the consumption of at
least one character every other step, so `2 * length + 8` is exhaustive. -/
def jsonValue : Nat → List Char → Option (JsonVal × List Char)
  | 0, _ => none
  | fuel + 1, cs =>
    match skipWs cs with
    | '"' :: rest =>
      match jsonStringBody (rest.length + 1) [] rest with
      | some (body, rest2) => some (.str ⟨body⟩, rest2)
      | none => none
    | '\x7b' :: rest => jsonObjBody fuel rest
    | '[' :: rest => jsonArrBody fuel rest
    | 't' :: 'r' :: 'u' :: 'e' :: rest => some (.bool true, rest)
    | 'f' :: 'a' :: 'l' :: 's' :: 'e' :: rest => some (.bool false, rest)
    | 'n' :: 'u' :: 'l' :: 'l' :: rest => some (.null, rest)
    | 'N' :: 'a' :: 'N' :: rest => some (.num "NaN", rest)
    | 'I' :: 'n' :: 'f' :: 'i' :: 'n' :: 'i' :: 't' :: 'y' :: rest =>
      some (.num "Infinity", rest)
    | '-' :: 'I' :: 'n' :: 'f' :: 'i' :: 'n' :: 'i' :: 't' :: 'y' :: rest =>
      some (.num "-Infinity", rest)
    | other =>
      match jsonNumberLit other with
      | some (lit, rest) => some (.num ⟨lit⟩, rest)
      | none => none

/-- Object body, after the opening brace: empty object or field list. -/
def jsonObjBody : Nat → List Char → Option (JsonVal × List Char)
  | 0, _ => none
  | fuel + 1, cs =>
    match skipWs cs with
    | '\x7d' :: rest => some (.obj [], rest)
    | _ => jsonObjFieldsLoop fuel [] cs

/-- One or more `"key": value` fields, comma-separated, up to the closing
brace. -/
def jsonObjFieldsLoop : Nat → List (String × JsonVal) → List Char →
    Option (JsonVal × List Char)
  | 0, _, _ => none
  | fuel + 1, acc, cs =>
    match skipWs cs with
    | '"' :: rest =>
      match jsonStringBody (rest.length + 1) [] rest with
      | none => none
      | some (key, rest2) =>
        match skipWs rest2 with
        | ':' :: rest3 =>
          match jsonValue fuel rest3 with
          | none => none
          | some (v, rest4) =>
            match skipWs rest4 with
            | ',' :: rest5 => jsonObjFieldsLoop fuel ((⟨key⟩, v) :: acc) rest5
            | '\x7d' :: rest5 => some (.obj ((⟨key⟩, v) :: acc).reverse, rest5)
            | _ => none
        | _ => none
    | _ => none

/-- Array body, after the opening bracket: empty array or element list. -/
def jsonArrBody : Nat → List Char → Option (JsonVal × List Char)
  | 0, _ => none
  | fuel + 1, cs =>
    match skipWs cs with
    | ']' :: rest => some (.arr [], rest)
    | _ => jsonArrElemsLoop fuel [] cs

/-- One or more comma-separated array elements up to the closing
bracket. -/
def jsonArrElemsLoop : Nat → List JsonVal → List Char → Option (JsonVal × List Char)
  | 0, _, _ => none
  | fuel + 1, acc, cs =>
    match jsonValue fuel cs with
    | none => none
    | some (v, rest) =>
      match skipWs rest with
      | ',' :: rest2 => jsonArrElemsLoop fuel (v :: acc) rest2
      | ']' :: rest2 => some (.arr (v :: acc).reverse, rest2)
      | _ => none

end

/-- The `json.loads(json_str)` call: one JSON value with nothing but
whitespace after it, `none` when the decoder raises. -/
def jsonLoads (s : String) : Option JsonVal :=
  match jsonValue (2 * s.length + 8) s.toList with
  | none => none
  | some (v, rest) => if (skipWs rest).isEmpty then some v else none

/-- Decode to a dictionary: the candidate always starts with a brace, so a
successful `json.loads` yields a dict; any non-dict value would make the
following `data.get` raise `AttributeError`, which `_parse_response`
catches — folded into `none` here together with a decode raise. -/
def jsonLoadsObj (s : String) : Option (List (String × JsonVal)) :=
  match jsonLoads s with
  | some (.obj fields) => some fields
  | _ => none

/-- `data.get(key, "")` on a decoded JSON object; with duplicate keys the
Python dict keeps the last occurrence. -/
def jGet (fields : List (String × JsonVal)) (k : String) : JsonVal :=
  (fields.reverse.lookup k).getD (.str "")

/-- The whitespace set of Python `str.strip()` / `str.isspace()`:
U+0009–U+000D, U+001C–U+001F, space, U+0085, U+00A0, U+1680,
U+2000–U+200A, U+2028, U+2029, U+202F, U+205F and U+3000. -/
def pyIsSpace (c : Char) : Bool :=
  let n := c.toNat
  (9 ≤ n && n ≤ 13) || (28 ≤ n && n ≤ 32) || n = 0x85 || n = 0xa0 || n = 0x1680 ||
    (0x2000 ≤ n && n ≤ 0x200a) || n = 0x2028 || n = 0x2029 || n = 0x202f ||
    n = 0x205f || n = 0x3000

/-- Python `str.strip()` on the character list. -/
def trimChars (cs : List Char) : List Char :=
  ((cs.dropWhile pyIsSpace).reverse.dropWhile pyIsSpace).reverse

/-- Python `line.strip()`. -/
def pyStrip (s : String) : String :=
  ⟨trimChars s.toList⟩

/-- ASCII lowercasing of one character (Python `str.lower()` restricted to
the ASCII range; the marker keywords are ASCII). -/
def asciiLowerChar (c : Char) : Char :=
  if 65 ≤ c.toNat && c.toNat ≤ 90 then Char.ofNat (c.toNat + 32) else c

/-- Python `s.lower()`. -/
def asciiLower (s : String) : String :=
  ⟨s.toList.map asciiLowerChar⟩

/-- Python `s.split(sep)` for a one-character separator: splits at every
occurrence, keeping empty pieces (`"".split` is `[""]`). -/
def splitOnSep (sep : Char) : List Char → List (List Char)
  | [] => [[]]
  | c :: rest =>
    match splitOnSep sep rest with
    | [] => [[]]
    | cur :: more => if c = sep then [] :: cur :: more else (c :: cur) :: more

/-- Python `content.split("\n")`. -/
def pySplitLines (s : String) : List String :=
  (splitOnSep '\n' s.toList).map fun cs => ⟨cs⟩

/-- Checks that the first list is a prefix of the second. -/
def startsWithList : List Char → List Char → Bool
  | [], _ => true
  | _ :: _, [] => false
  | p :: ps, h :: hs => p == h && startsWithList ps hs

/-- Checks that the first list occurs contiguously inside the second. -/
def infixOfList (pat : List Char) : List Char → Bool
  | [] => pat.isEmpty
  | h :: hs => startsWithList pat (h :: hs) || infixOfList pat hs

/-- Substring containment, the Python `in` operator on strings. -/
def containsSub (hay pat : String) : Bool :=
  infixOfList pat.toList hay.toList

/-- The four accumulation targets of `_extract_from_text`. -/
inductive SuggestField where
  | intent
  | thoughts
  | realNeed
  | suggestedReply
deriving DecidableEq

/-- Appends accumulated text to one field of a suggestion under
construction (`result[current_key] += ...`). -/
def appendField (r : Suggestion) (f : SuggestField) (t : String) : Suggestion :=
  match f with
  | .intent => { r with intent := r.intent.strAppend t }
  | .thoughts => { r with thoughts := r.thoughts.strAppend t }
  | .realNeed => { r with realNeed := r.realNeed.strAppend t }
  | .suggestedReply => { r with suggestedReply := r.suggestedReply.strAppend t }

/-- Marker classification of one stripped line, in the order of the
`if`/`elif` chain of `_extract_from_text`. -/
def classifyLine (line : String) : Option SuggestField :=
  if containsSub line "意图" || containsSub (asciiLower line) "intent" then some .intent
  else if containsSub line "思考" || containsSub (asciiLower line) "thought" then some .thoughts
  else if containsSub line "需求" || containsSub (asciiLower line) "need" then some .realNeed
  else if containsSub line "建议" || containsSub (asciiLower line) "reply"
      || containsSub line "回复" then
    some .suggestedReply
  else none

/-- One iteration of the `_extract_from_text` line loop: the stripped
line either selects the current field (marker line) or, once a field is
selected and the line is non-empty, is appended to that field with a
trailing space. -/
def extractStep (st : Option SuggestField × Suggestion) (rawLine : String) :
    Option SuggestField × Suggestion :=
  let line := pyStrip rawLine
  match classifyLine line with
  | some f => (some f, st.2)
  | none =>
    match st.1 with
    | some f => if line = "" then st else (st.1, appendField st.2 f (line ++ " "))
    | none => st

/-- `SuggestionGenerator._extract_from_text`: scans the stripped lines
with `extractStep`, starting from four empty string fields. -/
def extractFromText (content : String) : Suggestion :=
  ((pySplitLines content).foldl extractStep
    (none, ⟨.str "", .str "", .str "", .str ""⟩)).2

/-- `SuggestionGenerator._parse_response`: first tries to locate and
decode an embedded JSON object — a raised decode (or a failed `data.get`)
is caught inside `_parse_response` and yields the fixed empty suggestion —
otherwise falls back to the keyword line scan. -/
def parseResponse (content : String) : Suggestion :=
  match findJson content with
  | some js =>
    match jsonLoadsObj js with
    | some fields =>
      ⟨jGet fields "intent", jGet fields "thoughts", jGet fields "real_need",
        jGet fields "suggested_reply"⟩
    | none => emptySuggestion
  | none => extractFromText content

/-- `SuggestionGenerator.generate_suggestion`: empty context
short-circuits to the fixed suggestion with no chat call; otherwise the
chat call is made once, a raised call is caught and converted to the fixed
suggestion, and on success the parsed suggestion is returned — unless its
`intent` value cannot be sliced by the logging statement
(`suggestion["intent"][:50]` raises `TypeError` on a non-`str`,
non-`list` value), in which case the surrounding handler again converts
to the fixed suggestion.  The second component counts the chat calls
performed. -/
def SuggestionGenerator.generateSuggestion (chatFn : List Message → Except String String)
    (g : SuggestionGenerator) (analyzer : ConversationAnalyzer)
    (contextTurns : Nat) : Suggestion × Nat :=
  let context := analyzer.getContextText contextTurns
  if context = "" then (emptySuggestion, 0)
  else
    match chatFn (buildAnalysisMessages g context) with
    | .error _ => (emptySuggestion, 1)
    | .ok content =>
      let suggestion := parseResponse content
      if suggestion.intent.sliceable then (suggestion, 1) else (emptySuggestion, 1)

/-! ## Capability factories and managed services
(`app/core/stt/factory.py`, `app/core/llm/factory.py`,
`app/services/transcription_service.py`, `app/services/analysis_service.py`)

A provider client object is modelled as the record of constructor arguments
the factory passes to it; `factory.create` raising `ValueError` is an
`Except.error`.  The network operations `connect`/`disconnect`/`chat` are
oracle arguments of the service methods that call them. -/

/-- A constructed STT client (`ElevenLabsSTT` / `QwenAudioSTT`): the class
tag plus the constructor arguments. -/
structure STTClient where
  className : String
  apiKey : Option String
  language : String
  model : String
deriving DecidableEq

/-- `STTFactory.create`: lowercases the provider, fills in the provider's
default model, and raises `ValueError` on an unsupported provider. -/
def sttFactoryCreate (provider : String) (apiKey : Option String)
    (language : String) (model : Option String) : Except String STTClient :=
  let p := asciiLower provider
  if p = "elevenlabs" then
    .ok ⟨"ElevenLabsSTT", apiKey, language, model.getD "eleven_multilingual_v2"⟩
  else if p = "qwen" then
    .ok ⟨"QwenAudioSTT", apiKey, language, model.getD "qwen-audio-turbo"⟩
  else .error ("Unsupported STT provider: " ++ p)

/-- The `TranscriptionService` state. -/
structure TranscriptionService where
  provider : String
  apiKey : Option String
  language : String
  model : Option String
  sttClient : Option STTClient
  isRunning : Bool
deriving DecidableEq

/-- `TranscriptionService.__init__`. -/
def TranscriptionService.init (provider : String) (apiKey : Option String)
    (language : String) (model : Option String) : TranscriptionService :=
  ⟨provider, apiKey, language, model, none, false⟩

/-- `TranscriptionService.start`: rejected immediately when already
running; otherwise the client is built by the factory (a raise is caught
and reported as `false`), assigned, and `connect` is attempted — its
outcome `connectResult` is `.error` when the call raises, `.ok b` when it
returns `b`; the service is running only when `connect` returned `True`. -/
def TranscriptionService.start (s : TranscriptionService)
    (connectResult : Except String Bool) : Bool × TranscriptionService :=
  if s.isRunning then (false, s)
  else
    match sttFactoryCreate s.provider s.apiKey s.language s.model with
    | .error _ => (false, s)
    | .ok client =>
      match connectResult with
      | .error _ => (false, { s with sttClient := some client })
      | .ok b =>
        if b then (true, { s with sttClient := some client, isRunning := true })
        else (false, { s with sttClient := some client })

/-- `TranscriptionService.stop`: rejected when not running; otherwise
disconnects the client if one is held (a raise is caught, leaving the state
as it was), clears the client and the running flag. -/
def TranscriptionService.stop (s : TranscriptionService)
    (disconnectResult : Except String Unit) : Bool × TranscriptionService :=
  if !s.isRunning then (false, s)
  else
    match s.sttClient with
    | some _ =>
      match disconnectResult with
      | .error _ => (false, s)
      | .ok _ => (true, { s with sttClient := none, isRunning := false })
    | none => (true, { s with sttClient := none, isRunning := false })

/-- A constructed LLM client: the class tag plus the constructor arguments
(`custom` reuses `OpenAIClient`). -/
structure LLMClient where
  className : String
  apiKey : Option String
  baseUrl : Option String
  model : String
  temperature : ℚ
  maxTokens : Nat
deriving DecidableEq

/-- Python string falsiness of an optional key (`if not api_key`). -/
def optStrFalsy : Option String → Bool
  | none => true
  | some s => s = ""

/-- `LLMFactory.create`: lowercases the provider, checks required
arguments (`ValueError` on a falsy key where one is required), fills in the
provider's default model, and raises on an unsupported provider. -/
def llmFactoryCreate (provider : String) (apiKey : Option String)
    (baseUrl : Option String) (model : Option String) (temperature : ℚ)
    (maxTokens : Nat) : Except String LLMClient :=
  let p := asciiLower provider
  if p = "openai" then
    if optStrFalsy apiKey then .error "OpenAI requires api_key"
    else .ok ⟨"OpenAIClient", apiKey, baseUrl, model.getD "gpt-4o", temperature, maxTokens⟩
  else if p = "anthropic" then
    if optStrFalsy apiKey then .error "Anthropic requires api_key"
    else .ok ⟨"AnthropicClient", apiKey, baseUrl, model.getD "claude-3-5-sonnet-20241022",
      temperature, maxTokens⟩
  else if p = "ollama" then
    .ok ⟨"OllamaClient", apiKey, some (baseUrl.getD "http://localhost:11434"),
      model.getD "llama2", temperature, maxTokens⟩
  else if p = "kimi" then
    if optStrFalsy apiKey then .error "Kimi requires api_key"
    else .ok ⟨"KimiClient", apiKey, baseUrl, model.getD "moonshot-v1-8k", temperature, maxTokens⟩
  else if p = "glm" then
    if optStrFalsy apiKey then .error "GLM requires api_key"
    else .ok ⟨"GLMClient", apiKey, baseUrl, model.getD "glm-4", temperature, maxTokens⟩
  else if p = "custom" then
    if optStrFalsy apiKey then .error "Custom API requires api_key"
    else if optStrFalsy baseUrl then .error "Custom API requires base_url"
    else .ok ⟨"OpenAIClient", apiKey, baseUrl, model.getD "custom-model", temperature, maxTokens⟩
  else .error ("Unsupported LLM provider: " ++ p)

/-- The `AnalysisService` state. -/
structure AnalysisService where
  llmProvider : String
  llmApiKey : Option String
  llmBaseUrl : Option String
  llmModel : Option String
  llmTemperature : ℚ
  llmMaxTokens : Nat
  scenarioConfig : ScenarioConfig
  analysisPrompt : Option String
  llmClient : Option LLMClient
  conversationAnalyzer : ConversationAnalyzer
  suggestionGenerator : Option SuggestionGenerator
  isRunning : Bool
deriving DecidableEq

/-- `AnalysisService.__init__`: no client or generator yet, a fresh
analyzer with the default `max_history = 20`, not running. -/
def AnalysisService.init (provider : String) (apiKey : Option String)
    (baseUrl : Option String) (model : Option String) (temperature : ℚ)
    (maxTokens : Nat) (scenarioConfig : ScenarioConfig)
    (analysisPrompt : Option String) : AnalysisService :=
  ⟨provider, apiKey, baseUrl, model, temperature, maxTokens, scenarioConfig,
    analysisPrompt, none, ConversationAnalyzer.init 20, none, false⟩

/-- `AnalysisService.start`: rejected immediately when already running;
otherwise builds the LLM client via the factory (a raise is caught and
reported as `false` with the state untouched), builds a fresh suggestion
generator around it, and marks the service running. -/
def AnalysisService.start (s : AnalysisService) : Bool × AnalysisService :=
  if s.isRunning then (false, s)
  else
    match llmFactoryCreate s.llmProvider s.llmApiKey s.llmBaseUrl s.llmModel
        s.llmTemperature s.llmMaxTokens with
    | .error _ => (false, s)
    | .ok client =>
      (true, { s with
        llmClient := some client,
        suggestionGenerator := some ⟨s.scenarioConfig, s.analysisPrompt.getD defaultAnalysisPrompt⟩,
        isRunning := true })

/-- `AnalysisService.stop`: rejected when not running; otherwise drops the
client and generator and clears the running flag (nothing in the body can
raise). -/
def AnalysisService.stop (s : AnalysisService) : Bool × AnalysisService :=
  if !s.isRunning then (false, s)
  else (true, { s with llmClient := none, suggestionGenerator := none, isRunning := false })

/-- `AnalysisService.add_conversation_turn`: a no-op when the service is
not running, otherwise delegates to the analyzer's `add_turn`. -/
def AnalysisService.addConversationTurn (s : AnalysisService) (text : String)
    (speaker : Option Speaker) (confidence : ℚ) (now : Nat) : AnalysisService :=
  if !s.isRunning then s
  else { s with
    conversationAnalyzer := (s.conversationAnalyzer.addTurn text speaker confidence now).2 }

/-- `AnalysisService.generate_suggestion`: returns `None` (touching
nothing) when the service is not running or holds no generator; otherwise
delegates to the generator, whose own error handling ensures the delegated
call returns normally. -/
def AnalysisService.generateSuggestion (s : AnalysisService)
    (chatFn : List Message → Except String String) (contextTurns : Nat) :
    Option Suggestion × AnalysisService :=
  if !s.isRunning then (none, s)
  else
    match s.suggestionGenerator with
    | none => (none, s)
    | some g => (some (SuggestionGenerator.generateSuggestion chatFn g s.conversationAnalyzer contextTurns).1, s)

/-! ## Supporting lemmas -/

theorem lastN_of_length_le (m : Nat) (l : List α) (h : l.length ≤ m) : lastN m l = l := by
  unfold lastN
  have h0 : l.length - m = 0 := by omega
  rw [h0, List.drop_zero]

theorem length_lastN (m : Nat) (l : List α) :
    (lastN m l).length = l.length - (l.length - m) := by
  unfold lastN
  exact List.length_drop _ _

theorem length_lastN_le (m : Nat) (l : List α) : (lastN m l).length ≤ m := by
  rw [length_lastN]
  omega

theorem lastN_append (m : Nat) (a b : List α) :
    lastN m (lastN m a ++ b) = lastN m (a ++ b) := by
  unfold lastN
  have hk : a.length - m ≤ a.length := by omega
  rw [← List.drop_append_of_le_length hk, List.drop_drop]
  congr 1
  simp only [List.length_drop, List.length_append]
  omega

theorem AudioBuffer.write_bufferSize (xs : List Int) : ∀ s : AudioBuffer,
    (s.write xs).bufferSize = s.bufferSize := by
  induction xs with
  | nil => intro s; rfl
  | cons x xs ih =>
    intro s
    show ((s.pushSample x).write xs).bufferSize = s.bufferSize
    rw [ih]
    rfl

theorem AudioBuffer.write_chunkSize (xs : List Int) : ∀ s : AudioBuffer,
    (s.write xs).chunkSize = s.chunkSize := by
  induction xs with
  | nil => intro s; rfl
  | cons x xs ih =>
    intro s
    show ((s.pushSample x).write xs).chunkSize = s.chunkSize
    rw [ih]
    rfl

theorem AudioBuffer.write_data (xs : List Int) : ∀ s : AudioBuffer,
    s.data.length ≤ s.bufferSize →
    (s.write xs).data = lastN s.bufferSize (s.data ++ xs) := by
  induction xs with
  | nil =>
    intro s h
    show s.data = lastN s.bufferSize (s.data ++ [])
    rw [List.append_nil, lastN_of_length_le _ _ h]
  | cons x xs ih =>
    intro s h
    show ((s.pushSample x).write xs).data = lastN s.bufferSize (s.data ++ x :: xs)
    have h1 : (s.pushSample x).data.length ≤ (s.pushSample x).bufferSize :=
      length_lastN_le _ _
    rw [ih _ h1]
    show lastN s.bufferSize (lastN s.bufferSize (s.data ++ [x]) ++ xs) = _
    rw [lastN_append]
    congr 1
    simp

theorem AudioBuffer.writes_data (ws : List (List Int)) : ∀ s : AudioBuffer,
    s.data.length ≤ s.bufferSize →
    (ws.foldl AudioBuffer.write s).data = lastN s.bufferSize (s.data ++ ws.flatten) := by
  induction ws with
  | nil =>
    intro s h
    show s.data = lastN s.bufferSize (s.data ++ List.flatten [])
    simp [lastN_of_length_le _ _ h]
  | cons w ws ih =>
    intro s h
    show (ws.foldl AudioBuffer.write (s.write w)).data = _
    have h1 : (s.write w).data.length ≤ (s.write w).bufferSize := by
      rw [AudioBuffer.write_data w s h, AudioBuffer.write_bufferSize]
      exact length_lastN_le _ _
    rw [ih _ h1, AudioBuffer.write_bufferSize, AudioBuffer.write_data w s h, lastN_append]
    simp

theorem AudioBuffer.writes_bufferSize (ws : List (List Int)) : ∀ s : AudioBuffer,
    (ws.foldl AudioBuffer.write s).bufferSize = s.bufferSize := by
  induction ws with
  | nil => intro s; rfl
  | cons w ws ih =>
    intro s
    show (ws.foldl AudioBuffer.write (s.write w)).bufferSize = s.bufferSize
    rw [ih, AudioBuffer.write_bufferSize]

theorem AudioBuffer.writes_chunkSize (ws : List (List Int)) : ∀ s : AudioBuffer,
    (ws.foldl AudioBuffer.write s).chunkSize = s.chunkSize := by
  induction ws with
  | nil => intro s; rfl
  | cons w ws ih =>
    intro s
    show (ws.foldl AudioBuffer.write (s.write w)).chunkSize = s.chunkSize
    rw [ih, AudioBuffer.write_chunkSize]

theorem AudioBuffer.write_channels (xs : List Int) : ∀ s : AudioBuffer,
    (s.write xs).channels = s.channels := by
  induction xs with
  | nil => intro s; rfl
  | cons x xs ih =>
    intro s
    show ((s.pushSample x).write xs).channels = s.channels
    rw [ih]
    rfl

theorem AudioBuffer.writes_channels (ws : List (List Int)) : ∀ s : AudioBuffer,
    (ws.foldl AudioBuffer.write s).channels = s.channels := by
  induction ws with
  | nil => intro s; rfl
  | cons w ws ih =>
    intro s
    show (ws.foldl AudioBuffer.write (s.write w)).channels = s.channels
    rw [ih, AudioBuffer.write_channels]

theorem AudioBuffer.drain_spec (fuel : Nat) : ∀ s : AudioBuffer,
    0 < s.chunkSize → 0 < s.channels ∧ s.chunkSize % s.channels = 0 →
    s.data.length ≤ fuel →
    (AudioBuffer.drainChunks fuel s).1.length = s.data.length / s.chunkSize ∧
    (AudioBuffer.drainChunks fuel s).1.map List.length
      = List.replicate (s.data.length / s.chunkSize) s.chunkSize ∧
    (AudioBuffer.drainChunks fuel s).1.flatten
      = s.data.take (s.chunkSize * (s.data.length / s.chunkSize)) ∧
    (AudioBuffer.drainChunks fuel s).2.2 = none ∧
    (AudioBuffer.drainChunks fuel s).2.1.readChunk = none := by
  induction fuel with
  | zero =>
    intro s hcs hch hlen
    have h0 : s.data.length = 0 := by omega
    have hdiv : s.data.length / s.chunkSize = 0 := by rw [h0]; simp
    refine ⟨by simp [AudioBuffer.drainChunks, hdiv], by simp [AudioBuffer.drainChunks, hdiv],
      by simp [AudioBuffer.drainChunks, hdiv], by simp [AudioBuffer.drainChunks], ?_⟩
    show s.readChunk = none
    unfold AudioBuffer.readChunk
    rw [if_pos (by omega)]
  | succ f ih =>
    intro s hcs hch hlen
    by_cases hlt : s.data.length < s.chunkSize
    · have hnone : s.readChunk = none := by
        unfold AudioBuffer.readChunk
        rw [if_pos hlt]
      have hdiv : s.data.length / s.chunkSize = 0 := Nat.div_eq_of_lt hlt
      have hdr : AudioBuffer.drainChunks (f + 1) s = ([], s, none) := by
        simp only [AudioBuffer.drainChunks, hnone]
      rw [hdr]
      exact ⟨by simp [hdiv], by simp [hdiv], by simp [hdiv], rfl, hnone⟩
    · have hle : s.chunkSize ≤ s.data.length := by omega
      have hsome : s.readChunk
          = some (Except.ok (s.data.take s.chunkSize),
              { s with data := s.data.drop s.chunkSize }) := by
        simp only [AudioBuffer.readChunk, if_neg hlt, if_pos hch]
      have hdr : AudioBuffer.drainChunks (f + 1) s
          = (s.data.take s.chunkSize
              :: (AudioBuffer.drainChunks f { s with data := s.data.drop s.chunkSize }).1,
             (AudioBuffer.drainChunks f { s with data := s.data.drop s.chunkSize }).2.1,
             (AudioBuffer.drainChunks f { s with data := s.data.drop s.chunkSize }).2.2) := by
        simp only [AudioBuffer.drainChunks, hsome]
      have hlen' : ({ s with data := s.data.drop s.chunkSize } : AudioBuffer).data.length ≤ f := by
        simp only [List.length_drop]
        omega
      obtain ⟨ih1, ih2, ih3, ih4, ih5⟩ :=
        ih { s with data := s.data.drop s.chunkSize } hcs hch hlen'
      simp only [List.length_drop] at ih1 ih2 ih3
      have hdiv : s.data.length / s.chunkSize
          = (s.data.length - s.chunkSize) / s.chunkSize + 1 :=
        Nat.div_eq_sub_div hcs hle
      refine ⟨?_, ?_, ?_, ?_, ?_⟩
      · rw [hdr]
        simp only [List.length_cons, ih1]
        omega
      · rw [hdr]
        simp only [List.map_cons, ih2, hdiv, List.replicate_succ]
        rw [List.length_take_of_le hle]
      · rw [hdr]
        simp only [List.flatten_cons, ih3]
        rw [← List.take_add, hdiv]
        congr 1
        ring
      · rw [hdr]
        exact ih4
      · rw [hdr]
        exact ih5

theorem AudioBuffer.applyOp_bufferSize (s : AudioBuffer) (op : BufferOp) :
    (s.applyOp op).bufferSize = s.bufferSize := by
  cases op with
  | write xs => exact AudioBuffer.write_bufferSize xs s
  | readChunk =>
    by_cases h : s.data.length < s.chunkSize
    · simp [AudioBuffer.applyOp, AudioBuffer.readChunk, h]
    · by_cases hch : 0 < s.channels ∧ s.chunkSize % s.channels = 0
      · simp [AudioBuffer.applyOp, AudioBuffer.readChunk, h, hch]
      · simp [AudioBuffer.applyOp, AudioBuffer.readChunk, h, hch]
  | clear => rfl

theorem AudioBuffer.applyOp_chunkSize (s : AudioBuffer) (op : BufferOp) :
    (s.applyOp op).chunkSize = s.chunkSize := by
  cases op with
  | write xs => exact AudioBuffer.write_chunkSize xs s
  | readChunk =>
    by_cases h : s.data.length < s.chunkSize
    · simp [AudioBuffer.applyOp, AudioBuffer.readChunk, h]
    · by_cases hch : 0 < s.channels ∧ s.chunkSize % s.channels = 0
      · simp [AudioBuffer.applyOp, AudioBuffer.readChunk, h, hch]
      · simp [AudioBuffer.applyOp, AudioBuffer.readChunk, h, hch]
  | clear => rfl

theorem AudioBuffer.applyOp_data_le (s : AudioBuffer) (op : BufferOp)
    (h : s.data.length ≤ s.bufferSize) :
    (s.applyOp op).data.length ≤ (s.applyOp op).bufferSize := by
  cases op with
  | write xs =>
    show (s.write xs).data.length ≤ (s.write xs).bufferSize
    rw [AudioBuffer.write_data xs s h, AudioBuffer.write_bufferSize]
    exact length_lastN_le _ _
  | readChunk =>
    by_cases hlt : s.data.length < s.chunkSize
    · simpa [AudioBuffer.applyOp, AudioBuffer.readChunk, hlt] using h
    · by_cases hch : 0 < s.channels ∧ s.chunkSize % s.channels = 0
      · simp only [AudioBuffer.applyOp, AudioBuffer.readChunk, if_neg hlt, if_pos hch]
        simp only [List.length_drop]
        omega
      · simp only [AudioBuffer.applyOp, AudioBuffer.readChunk, if_neg hlt, if_neg hch]
        simp only [List.length_drop]
        omega
  | clear => simp [AudioBuffer.applyOp, AudioBuffer.clearBuf]

theorem AudioBuffer.runOps_inv (ops : List BufferOp) : ∀ s : AudioBuffer,
    s.data.length ≤ s.bufferSize →
    (s.runOps ops).data.length ≤ (s.runOps ops).bufferSize ∧
    (s.runOps ops).bufferSize = s.bufferSize ∧
    (s.runOps ops).chunkSize = s.chunkSize := by
  induction ops with
  | nil => intro s h; exact ⟨h, rfl, rfl⟩
  | cons op ops ih =>
    intro s h
    have h1 := AudioBuffer.applyOp_data_le s op h
    obtain ⟨r1, r2, r3⟩ := ih (s.applyOp op) h1
    exact ⟨r1, r2.trans (AudioBuffer.applyOp_bufferSize s op),
      r3.trans (AudioBuffer.applyOp_chunkSize s op)⟩

/-- Claim C1 (amended): for writes into a freshly constructed buffer
totalling `T ≤ capacity` samples, `read_chunk` is not-ready whenever fewer
than `chunk_size` samples are buffered; and provided `channels` is
positive and divides `chunk_size` — so the trailing
`reshape(-1, channels)` succeeds — repeated draining raises nothing and
yields exactly `⌊T / chunk_size⌋` chunks of exactly `chunk_size` samples
each, in write order (their concatenation is the written prefix), before
the next not-ready.  (When `channels` does not divide `chunk_size`,
`read_chunk` raises `ValueError` after removing the samples, aborting the
drain — see the counterexample.) -/
theorem spec_c1_amended (b cs ch : Nat) (ws : List (List Int)) (s : AudioBuffer)
    (r : List (List Int) × AudioBuffer × Option String) (hcs : 0 < cs)
    (hch : 0 < ch ∧ cs % ch = 0)
    (hT : ws.flatten.length ≤ b)
    (hs : s = ws.foldl AudioBuffer.write (AudioBuffer.fresh b cs ch))
    (hr : r = AudioBuffer.drainChunks s.data.length s) :
    (ws.flatten.length < cs → s.readChunk = none) ∧
    r.1.length = ws.flatten.length / cs ∧
    r.1.map List.length = List.replicate (ws.flatten.length / cs) cs ∧
    r.1.flatten = ws.flatten.take (cs * (ws.flatten.length / cs)) ∧
    r.2.2 = none ∧
    r.2.1.readChunk = none := by
  have hfresh : (AudioBuffer.fresh b cs ch).data.length
      ≤ (AudioBuffer.fresh b cs ch).bufferSize := by
    simp [AudioBuffer.fresh]
  have hdata : s.data = ws.flatten := by
    rw [hs, AudioBuffer.writes_data ws _ hfresh]
    show lastN b ([] ++ ws.flatten) = ws.flatten
    rw [List.nil_append]
    exact lastN_of_length_le _ _ hT
  have hchunk : s.chunkSize = cs := by
    rw [hs, AudioBuffer.writes_chunkSize]
    rfl
  have hchan : s.channels = ch := by
    rw [hs, AudioBuffer.writes_channels]
    rfl
  obtain ⟨d1, d2, d3, d4, d5⟩ :=
    AudioBuffer.drain_spec s.data.length s (by rw [hchunk]; exact hcs)
      (by rw [hchunk, hchan]; exact hch) (le_refl _)
  rw [← hr] at d1 d2 d3 d4 d5
  rw [hdata, hchunk] at d1 d2 d3
  refine ⟨?_, d1, d2, d3, d4, d5⟩
  intro hlt
  unfold AudioBuffer.readChunk
  rw [if_pos (by rw [hdata, hchunk]; exact hlt)]

theorem spec_c1_witness :
    0 < 3 ∧ (0 < 1 ∧ 3 % 1 = 0) ∧
    ([[1, 2], [3, 4, 5], [6]] : List (List Int)).flatten.length ≤ 10 ∧
    (AudioBuffer.drainChunks
        (([[1, 2], [3, 4, 5], [6]] : List (List Int)).foldl AudioBuffer.write
            (AudioBuffer.fresh 10 3 1)).data.length
        (([[1, 2], [3, 4, 5], [6]] : List (List Int)).foldl AudioBuffer.write
            (AudioBuffer.fresh 10 3 1))).1.length = 2 ∧
    (AudioBuffer.drainChunks
        (([[1, 2], [3, 4, 5], [6]] : List (List Int)).foldl AudioBuffer.write
            (AudioBuffer.fresh 10 3 1)).data.length
        (([[1, 2], [3, 4, 5], [6]] : List (List Int)).foldl AudioBuffer.write
            (AudioBuffer.fresh 10 3 1))).2.1.readChunk = none := by
  have h := spec_c1_amended 10 3 1 [[1, 2], [3, 4, 5], [6]] _ _ (by decide) (by decide)
    (by decide) rfl rfl
  refine ⟨by decide, by decide, by decide, ?_, h.2.2.2.2.2⟩
  rw [h.2.1]
  decide

/-- Claim C1 counterexample: with `channels = 3` and `chunk_size = 2`
(both legal constructor inputs; `channels` does not divide `chunk_size`),
three written samples make `read_chunk` pop two samples and then raise
`ValueError` from `reshape(-1, 3)`, so draining yields zero chunks and a
raised error where the claim promises `⌊3 / 2⌋ = 1` chunk. -/
theorem spec_c1_counterexample :
    ((AudioBuffer.fresh 10 2 3).write [1, 2, 3]).data.length / 2 = 1 ∧
    (AudioBuffer.drainChunks ((AudioBuffer.fresh 10 2 3).write [1, 2, 3]).data.length
        ((AudioBuffer.fresh 10 2 3).write [1, 2, 3])).1 = [] ∧
    (AudioBuffer.drainChunks ((AudioBuffer.fresh 10 2 3).write [1, 2, 3]).data.length
        ((AudioBuffer.fresh 10 2 3).write [1, 2, 3])).2.2 = some "cannot reshape" := by
  exact ⟨rfl, rfl, rfl⟩

/-- Claim C7 (amended): through every operation sequence from a fresh
buffer the sample count never exceeds the capacity, a write keeps exactly
the last `capacity` samples of old-then-new (evicting oldest first), and —
provided the capacity is positive — the buffer level is defined and lies
in [0, 1].  (With capacity 0 the level computation raises instead, see the
counterexample.) -/
theorem spec_c7_amended (b cs ch : Nat) (ops : List BufferOp) (xs : List Int)
    (s : AudioBuffer) (hb : 0 < b)
    (hs : s = (AudioBuffer.fresh b cs ch).runOps ops) :
    s.data.length ≤ b ∧
    (s.write xs).data = lastN b (s.data ++ xs) ∧
    s.getBufferLevel = some ((s.data.length : ℚ) / (b : ℚ)) ∧
    0 ≤ ((s.data.length : ℚ) / (b : ℚ)) ∧ ((s.data.length : ℚ) / (b : ℚ)) ≤ 1 := by
  have hfresh : (AudioBuffer.fresh b cs ch).data.length
      ≤ (AudioBuffer.fresh b cs ch).bufferSize := by
    simp [AudioBuffer.fresh]
  obtain ⟨h1, h2, _⟩ := AudioBuffer.runOps_inv ops _ hfresh
  rw [← hs] at h1 h2
  have hbuf : s.bufferSize = b := h2
  have hlen : s.data.length ≤ b := by rw [← hbuf]; exact h1
  refine ⟨hlen, ?_, ?_, ?_, ?_⟩
  · rw [AudioBuffer.write_data xs s (by rw [hbuf]; exact hlen), hbuf]
  · unfold AudioBuffer.getBufferLevel
    rw [if_neg (by omega : ¬s.bufferSize = 0), hbuf]
  · positivity
  · rw [div_le_one (by exact_mod_cast hb)]
    exact_mod_cast hlen

theorem spec_c7_witness :
    0 < 4 ∧
    ((AudioBuffer.fresh 4 2 1).runOps [.write [1, 2, 3]]).data.length ≤ 4 ∧
    ((AudioBuffer.fresh 4 2 1).runOps [.write [1, 2, 3]]).getBufferLevel
      = some (((((AudioBuffer.fresh 4 2 1).runOps [.write [1, 2, 3]]).data.length : ℚ)
          / ((4 : Nat) : ℚ))) := by
  have h := spec_c7_amended 4 2 1 [.write [1, 2, 3]] [9] _ (by decide) rfl
  exact ⟨by decide, h.1, h.2.2.1⟩

/-- Claim C7 counterexample: an `AudioBuffer` constructed with
`buffer_duration = 0` (so `buffer_size = 0`) is a legal buffer, but
`get_buffer_level()` raises `ZeroDivisionError` on it (modelled as `none`)
rather than returning a value in [0, 1]. -/
theorem spec_c7_counterexample : (AudioBuffer.fresh 0 1 1).getBufferLevel = none := rfl

theorem ConnectionManager.disconnect_active (s : ConnectionManager) (ws : Nat) :
    (s.disconnect ws).activeConnections = s.activeConnections.erase ws := by
  unfold ConnectionManager.disconnect
  split
  · rfl
  · rename_i h
    rw [List.erase_of_not_mem h]

theorem foldl_disconnect_active (ds : List Nat) : ∀ s : ConnectionManager,
    (ds.foldl ConnectionManager.disconnect s).activeConnections
      = ds.foldl List.erase s.activeConnections := by
  induction ds with
  | nil => intro s; rfl
  | cons d ds ih =>
    intro s
    rw [List.foldl_cons, List.foldl_cons, ih, ConnectionManager.disconnect_active]

theorem foldl_erase_cons_of_ne (ds : List Nat) : ∀ (a : Nat) (l : List Nat),
    (∀ x ∈ ds, x ≠ a) → ds.foldl List.erase (a :: l) = a :: ds.foldl List.erase l := by
  induction ds with
  | nil => intro a l _; rfl
  | cons x ds ih =>
    intro a l h
    have hxa : x ≠ a := h x (List.mem_cons_self x ds)
    rw [List.foldl_cons, List.foldl_cons,
      List.erase_cons_tail (by simp only [beq_iff_eq]; exact Ne.symm hxa)]
    exact ih a (l.erase x) fun y hy => h y (List.mem_cons_of_mem x hy)

theorem filter_foldl_erase : ∀ (l : List Nat) (p : Nat → Bool),
    (l.filter p).foldl List.erase l = l.filter (fun a => !(p a)) := by
  intro l p
  induction l with
  | nil => rfl
  | cons a t ih =>
    by_cases h : p a = true
    · rw [List.filter_cons_of_pos h, List.foldl_cons, List.erase_cons_head, ih]
      simp [List.filter_cons, h]
    · have hnf : p a = false := by simpa using h
      have h1 : (a :: t).filter p = t.filter p := by simp [List.filter_cons, hnf]
      have h2 : (a :: t).filter (fun x => !(p x)) = a :: t.filter (fun x => !(p x)) := by
        simp [List.filter_cons, hnf]
      have hfr : ∀ x ∈ t.filter p, x ≠ a := by
        intro x hx he
        have hp := List.of_mem_filter hx
        rw [he, hnf] at hp
        cases hp
      rw [h1, h2, foldl_erase_cons_of_ne _ a t hfr, ih]

theorem length_filter_add (l : List Nat) (p : Nat → Bool) :
    (l.filter p).length + (l.filter fun a => !(p a)).length = l.length := by
  induction l with
  | nil => rfl
  | cons a t ih =>
    by_cases h : p a = true
    · simp [List.filter_cons, h]
      omega
    · have hnf : p a = false := by simpa using h
      simp [List.filter_cons, hnf]
      omega

/-- Claim C2: `broadcast` attempts delivery to every registered observer in
registration order whatever the per-observer outcomes are, failing
observers are removed only by the post-iteration pass (the survivors are
exactly the non-failing observers in order), and the connection count drops
by exactly the number of failing observers. -/
theorem spec_c2 (s : ConnectionManager) (fails : Nat → Bool) :
    (ConnectionManager.broadcast fails s).1 = s.activeConnections ∧
    (ConnectionManager.broadcast fails s).2.activeConnections
      = s.activeConnections.filter (fun c => !(fails c)) ∧
    (ConnectionManager.broadcast fails s).2.getConnectionCount
      = s.getConnectionCount - (s.activeConnections.filter fails).length := by
  have h2 : (ConnectionManager.broadcast fails s).2.activeConnections
      = s.activeConnections.filter (fun c => !(fails c)) := by
    show ((s.activeConnections.filter fails).foldl ConnectionManager.disconnect
        s).activeConnections = _
    rw [foldl_disconnect_active, filter_foldl_erase]
  refine ⟨rfl, h2, ?_⟩
  unfold ConnectionManager.getConnectionCount
  rw [h2]
  have hl := length_filter_add s.activeConnections fails
  omega

/-- Claim C9 counterexample: `connect` appends unconditionally, so
connecting the very same observer handle twice leaves the registry with a
duplicate handle. -/
theorem spec_c9_counterexample :
    ((ConnectionManager.init.connect 7).connect 7).activeConnections = [7, 7] ∧
    ¬ ((ConnectionManager.init.connect 7).connect 7).activeConnections.Nodup := by
  exact ⟨rfl, by decide⟩

/-- Claim C9 (amended): the registry never contains a duplicate handle
provided every `connect` call registers a handle that is not currently in
the registry (as the transport's accept handshake ensures for live
connections); `disconnect` unconditionally preserves distinctness. -/
theorem spec_c9_amended (ops : List ManagerOp) : ∀ s : ConnectionManager,
    s.activeConnections.Nodup → s.freshOps ops = true →
    (s.runOps ops).activeConnections.Nodup := by
  induction ops with
  | nil => intro s h _; exact h
  | cons op rest ih =>
    intro s h hf
    cases op with
    | connect hdl =>
      simp only [ConnectionManager.freshOps, Bool.and_eq_true] at hf
      have hnotmem : hdl ∉ s.activeConnections := by simpa using hf.1
      show ((s.connect hdl).runOps rest).activeConnections.Nodup
      refine ih (s.connect hdl) ?_ hf.2
      show (s.activeConnections ++ [hdl]).Nodup
      rw [List.nodup_append]
      exact ⟨h, List.nodup_singleton _, by rw [List.disjoint_singleton]; exact hnotmem⟩
    | disconnect hdl =>
      simp only [ConnectionManager.freshOps] at hf
      show ((s.disconnect hdl).runOps rest).activeConnections.Nodup
      refine ih (s.disconnect hdl) ?_ hf
      rw [ConnectionManager.disconnect_active]
      exact h.erase hdl

theorem spec_c9_witness :
    ConnectionManager.init.activeConnections.Nodup ∧
    ConnectionManager.init.freshOps
      [.connect 1, .connect 2, .disconnect 1, .connect 1] = true ∧
    (ConnectionManager.init.runOps
      [.connect 1, .connect 2, .disconnect 1, .connect 1]).activeConnections.Nodup := by
  exact ⟨by decide, by decide,
    spec_c9_amended [.connect 1, .connect 2, .disconnect 1, .connect 1]
      ConnectionManager.init (by decide) (by decide)⟩

theorem snoc_cap (m : Nat) (l : List α) (t : α) (h : l.length ≤ m) :
    (if m < (l ++ [t]).length then (l ++ [t]).drop 1 else (l ++ [t]))
      = lastN m (l ++ [t]) := by
  by_cases hc : m < (l ++ [t]).length
  · rw [if_pos hc]
    unfold lastN
    congr 1
    simp only [List.length_append, List.length_cons, List.length_nil] at hc ⊢
    omega
  · rw [if_neg hc, lastN_of_length_le]
    simp only [List.length_append, List.length_cons, List.length_nil] at hc ⊢
    omega

theorem ConversationAnalyzer.addTurn_history (s : ConversationAnalyzer) (text : String)
    (speaker : Option Speaker) (conf : ℚ) (now : Nat)
    (h : s.conversationHistory.length ≤ s.maxHistory) :
    (s.addTurn text speaker conf now).2.conversationHistory
      = lastN s.maxHistory
          (s.conversationHistory ++ [(s.addTurn text speaker conf now).1]) := by
  exact snoc_cap s.maxHistory s.conversationHistory
    ⟨speaker.getD s.identifySpeaker, text, now, conf⟩ h

theorem ConversationAnalyzer.addTurns_history (ops : List TurnOp) :
    ∀ s : ConversationAnalyzer, s.conversationHistory.length ≤ s.maxHistory →
    (s.addTurns ops).2.conversationHistory
      = lastN s.maxHistory (s.conversationHistory ++ (s.addTurns ops).1) ∧
    (s.addTurns ops).2.maxHistory = s.maxHistory := by
  induction ops with
  | nil =>
    intro s h
    refine ⟨?_, rfl⟩
    show s.conversationHistory = lastN s.maxHistory (s.conversationHistory ++ [])
    rw [List.append_nil, lastN_of_length_le _ _ h]
  | cons op rest ih =>
    intro s h
    have h1 := ConversationAnalyzer.addTurn_history s op.text op.speaker op.confidence op.now h
    have hlen1 : (s.addTurn op.text op.speaker op.confidence op.now).2.conversationHistory.length
        ≤ (s.addTurn op.text op.speaker op.confidence op.now).2.maxHistory := by
      rw [h1]
      exact length_lastN_le _ _
    obtain ⟨ih1, ih2⟩ := ih (s.addTurn op.text op.speaker op.confidence op.now).2 hlen1
    refine ⟨?_, ih2⟩
    show ((s.addTurn op.text op.speaker op.confidence op.now).2.addTurns rest).2.conversationHistory
      = lastN s.maxHistory (s.conversationHistory
          ++ ((s.addTurn op.text op.speaker op.confidence op.now).1
              :: ((s.addTurn op.text op.speaker op.confidence op.now).2.addTurns rest).1))
    rw [ih1, h1]
    show lastN s.maxHistory _ = _
    rw [lastN_append]
    congr 1
    simp

/-- Claim C4: from a fresh analyzer, after any sequence of `add_turn`
calls the stored history is exactly the last `max_history` created turns
in creation order (`lastN`), so its length never exceeds `max_history`
and eviction is strictly oldest-first.  Quantifying over all operation
sequences gives the bound at every intermediate point. -/
theorem spec_c4 (m : Nat) (ops : List TurnOp) :
    ((ConversationAnalyzer.init m).addTurns ops).2.conversationHistory
      = lastN m ((ConversationAnalyzer.init m).addTurns ops).1 ∧
    ((ConversationAnalyzer.init m).addTurns ops).2.conversationHistory.length ≤ m := by
  obtain ⟨h1, _⟩ := ConversationAnalyzer.addTurns_history ops (ConversationAnalyzer.init m)
    (by simp [ConversationAnalyzer.init])
  have h1' : ((ConversationAnalyzer.init m).addTurns ops).2.conversationHistory
      = lastN m ((ConversationAnalyzer.init m).addTurns ops).1 := by
    rw [h1]
    rfl
  exact ⟨h1', by rw [h1']; exact length_lastN_le _ _⟩

theorem ConversationAnalyzer.addTurn_getLast (s : ConversationAnalyzer) (text : String)
    (conf : ℚ) (now : Nat) (hm : 1 ≤ s.maxHistory) :
    (s.addTurn text none conf now).2.conversationHistory.getLast?
      = some (s.addTurn text none conf now).1 := by
  show (if s.maxHistory < (s.conversationHistory
        ++ [(s.addTurn text none conf now).1]).length
      then (s.conversationHistory ++ [(s.addTurn text none conf now).1]).drop 1
      else (s.conversationHistory ++ [(s.addTurn text none conf now).1])).getLast?
    = some (s.addTurn text none conf now).1
  split
  · rename_i hlt
    cases hh : s.conversationHistory with
    | nil =>
      rw [hh] at hlt
      simp only [List.nil_append, List.length_cons, List.length_nil] at hlt
      omega
    | cons a rest =>
      simp only [List.drop_one, List.tail_cons]
      exact List.getLast?_concat rest
  · exact List.getLast?_concat s.conversationHistory

theorem identifySpeaker_ne_last (s : ConversationAnalyzer) (t : ConversationTurn)
    (h : s.conversationHistory.getLast? = some t) : s.identifySpeaker ≠ t.speaker := by
  unfold ConversationAnalyzer.identifySpeaker
  rw [h]
  show (if t.speaker = Speaker.other then Speaker.user else Speaker.other) ≠ t.speaker
  by_cases hsp : t.speaker = Speaker.other
  · rw [if_pos hsp, hsp]
    decide
  · rw [if_neg hsp]
    exact fun he => hsp he.symm

theorem addTurnsNoSpeaker_cons (s : ConversationAnalyzer) (t : String) (ts : List String) :
    s.addTurnsNoSpeaker (t :: ts)
      = (s.addTurn t none 1 0).1 :: (s.addTurn t none 1 0).2.addTurnsNoSpeaker ts := rfl

theorem addTurnsNoSpeaker_alternates (texts : List String) : ∀ s : ConversationAnalyzer,
    1 ≤ s.maxHistory →
    noConsecutiveRepeat ((s.addTurnsNoSpeaker texts).map ConversationTurn.speaker) = true := by
  induction texts with
  | nil => intro s _; rfl
  | cons t1 rest ih =>
    intro s hm
    cases rest with
    | nil => rfl
    | cons t2 rest2 =>
      rw [addTurnsNoSpeaker_cons, addTurnsNoSpeaker_cons]
      simp only [List.map_cons, noConsecutiveRepeat, Bool.and_eq_true]
      constructor
      · have hlast := ConversationAnalyzer.addTurn_getLast s t1 1 0 hm
        have hne := identifySpeaker_ne_last (s.addTurn t1 none 1 0).2
          (s.addTurn t1 none 1 0).1 hlast
        simp only [bne_iff_ne, ne_eq]
        exact fun he => hne he.symm
      · have := ih (s.addTurn t1 none 1 0).2 hm
        rw [addTurnsNoSpeaker_cons, List.map_cons] at this
        exact this

/-- Claim C3 (amended): an omitted speaker is inferred as `other` on empty
history and otherwise as the speaker different from the last stored turn's
speaker; consequently — provided `max_history ≥ 1` — no two consecutive
turns created by a run of unspecified-speaker `add_turn` calls share a
speaker.  (With `max_history = 0` the history empties after every call and
every inferred speaker is `other`, see the counterexample.) -/
theorem spec_c3_amended (s : ConversationAnalyzer) (texts : List String)
    (hm : 1 ≤ s.maxHistory) :
    noConsecutiveRepeat ((s.addTurnsNoSpeaker texts).map ConversationTurn.speaker) = true ∧
    (s.conversationHistory = [] → s.identifySpeaker = Speaker.other) ∧
    (s.conversationHistory ≠ [] →
      s.identifySpeaker
        ≠ (s.conversationHistory.getLastD ⟨Speaker.other, "", 0, 1⟩).speaker) := by
  refine ⟨addTurnsNoSpeaker_alternates texts s hm, ?_, ?_⟩
  · intro h
    unfold ConversationAnalyzer.identifySpeaker
    rw [h]
    rfl
  · intro h
    cases hl : s.conversationHistory.getLast? with
    | none =>
      rw [List.getLast?_eq_none_iff] at hl
      exact absurd hl h
    | some t =>
      have := identifySpeaker_ne_last s t hl
      rw [List.getLastD_eq_getLast?, hl]
      exact this

theorem spec_c3_witness :
    1 ≤ (ConversationAnalyzer.init 2).maxHistory ∧
    noConsecutiveRepeat
      (((ConversationAnalyzer.init 2).addTurnsNoSpeaker ["a", "b", "c"]).map
        ConversationTurn.speaker) = true := by
  exact ⟨by decide, (spec_c3_amended (ConversationAnalyzer.init 2) ["a", "b", "c"]
    (by decide)).1⟩

/-- Claim C3 counterexample: with `max_history = 0` (a legal constructor
argument) the history is emptied by the eviction step after every call, so
two consecutive unspecified-speaker `add_turn` calls both infer `other` —
two consecutive created turns share a speaker. -/
theorem spec_c3_counterexample :
    ((ConversationAnalyzer.init 0).addTurnsNoSpeaker ["a", "b"]).map ConversationTurn.speaker
      = [Speaker.other, Speaker.other] ∧
    noConsecutiveRepeat
      (((ConversationAnalyzer.init 0).addTurnsNoSpeaker ["a", "b"]).map
        ConversationTurn.speaker) = false := by
  exact ⟨rfl, rfl⟩

/-- Claim C6: when the formatted conversation context for the requested
number of turns is empty, `generate_suggestion` returns the fixed
"insufficient context" suggestion immediately with zero chat calls. -/
theorem spec_c6 (chatFn : List Message → Except String String)
    (g : SuggestionGenerator) (analyzer : ConversationAnalyzer) (n : Nat)
    (h : analyzer.getContextText n = "") :
    SuggestionGenerator.generateSuggestion chatFn g analyzer n = (emptySuggestion, 0) := by
  simp [SuggestionGenerator.generateSuggestion, h]

theorem spec_c6_witness :
    (ConversationAnalyzer.init 20).getContextText 5 = "" ∧
    SuggestionGenerator.generateSuggestion (fun _ => Except.ok "x")
      ⟨⟨none, none, none, none⟩, defaultAnalysisPrompt⟩ (ConversationAnalyzer.init 20) 5
      = (emptySuggestion, 0) := by
  exact ⟨rfl, spec_c6 (fun _ => Except.ok "x")
    ⟨⟨none, none, none, none⟩, defaultAnalysisPrompt⟩ (ConversationAnalyzer.init 20) 5 rfl⟩

theorem strAppend_isStr (v : JsonVal) (t : String) :
    (v.strAppend t).isStr = v.isStr := by
  cases v <;> rfl

theorem appendField_strSuggestion (r : Suggestion) (f : SuggestField) (t : String)
    (h : strSuggestion r = true) : strSuggestion (appendField r f t) = true := by
  cases f <;> simpa [appendField, strSuggestion, strAppend_isStr] using h

theorem extractStep_strSuggestion (st : Option SuggestField × Suggestion)
    (rawLine : String) (h : strSuggestion st.2 = true) :
    strSuggestion (extractStep st rawLine).2 = true := by
  simp only [extractStep]
  split
  · simpa using h
  · split
    · split
      · exact h
      · simpa using appendField_strSuggestion st.2 _ (pyStrip rawLine ++ " ") h
    · exact h

theorem foldl_extractStep_strSuggestion (lines : List String) :
    ∀ st : Option SuggestField × Suggestion, strSuggestion st.2 = true →
    strSuggestion ((lines.foldl extractStep st).2) = true := by
  induction lines with
  | nil => intro st h; exact h
  | cons l rest ih =>
    intro st h
    rw [List.foldl_cons]
    exact ih (extractStep st l) (extractStep_strSuggestion st l h)

theorem extractFromText_strSuggestion (content : String) :
    strSuggestion (extractFromText content) = true := by
  unfold extractFromText
  exact foldl_extractStep_strSuggestion (pySplitLines content) _ rfl

theorem extractFromText_sliceable (content : String) :
    (extractFromText content).intent.sliceable = true := by
  have h := extractFromText_strSuggestion content
  simp only [strSuggestion, Bool.and_eq_true] at h
  cases hv : (extractFromText content).intent <;>
    simp [JsonVal.sliceable] <;>
    · rw [hv] at h
      simp [JsonVal.isStr] at h

/-- Claim C5 counterexample: with a non-empty context and a model response
`"hello"` — the structured parse finds no object and the keyword line scan
yields no non-empty field — `generate_suggestion` returns the all-empty
suggestion, which is not the fixed "insufficient context" suggestion the
claim promises. -/
theorem spec_c5_counterexample :
    findJson "hello" = none ∧
    suggestionAllEmptyStr
      (SuggestionGenerator.generateSuggestion (fun _ => Except.ok "hello")
        ⟨⟨none, none, none, none⟩, defaultAnalysisPrompt⟩
        ((ConversationAnalyzer.init 20).addTurn "你好" none 1 0).2 5).1 = true ∧
    suggestionAllEmptyStr emptySuggestion = false := by
  refine ⟨rfl, by decide, rfl⟩

/-- Claim C5 (amended): given a non-empty context, a raised model call is
caught and yields the fixed "insufficient context" suggestion; but when
the response contains no structured-object candidate the result is the
line-scanning fallback's output — the all-empty suggestion when no
keyword line matches — which differs from the fixed suggestion.  In both
cases a result is returned (no exception propagates). -/
theorem spec_c5_amended (g : SuggestionGenerator) (analyzer : ConversationAnalyzer)
    (n : Nat) (chatFn : List Message → Except String String) (e content : String)
    (hctx : analyzer.getContextText n ≠ "") :
    (chatFn (buildAnalysisMessages g (analyzer.getContextText n)) = Except.error e →
      SuggestionGenerator.generateSuggestion chatFn g analyzer n = (emptySuggestion, 1)) ∧
    (chatFn (buildAnalysisMessages g (analyzer.getContextText n)) = Except.ok content →
      findJson content = none →
      SuggestionGenerator.generateSuggestion chatFn g analyzer n
        = (extractFromText content, 1)) ∧
    suggestionAllEmptyStr emptySuggestion = false := by
  refine ⟨?_, ?_, rfl⟩
  · intro hcall
    simp [SuggestionGenerator.generateSuggestion, hctx, hcall]
  · intro hcall hf
    simp [SuggestionGenerator.generateSuggestion, hctx, hcall, parseResponse, hf,
      extractFromText_sliceable]

theorem spec_c5_witness :
    ((ConversationAnalyzer.init 20).addTurn "你好" none 1 0).2.getContextText 5 ≠ "" ∧
    SuggestionGenerator.generateSuggestion (fun _ => Except.error "boom")
      ⟨⟨none, none, none, none⟩, defaultAnalysisPrompt⟩
      ((ConversationAnalyzer.init 20).addTurn "你好" none 1 0).2 5
      = (emptySuggestion, 1) := by
  refine ⟨by decide, ?_⟩
  exact (spec_c5_amended ⟨⟨none, none, none, none⟩, defaultAnalysisPrompt⟩
    ((ConversationAnalyzer.init 20).addTurn "你好" none 1 0).2 5
    (fun _ => Except.error "boom") "boom" "x" (by decide)).1 rfl

/-- Claim C10: while the analysis service is not running (or holds no
suggestion generator), `generate_suggestion` returns `None` — which is not
the fixed "insufficient context" suggestion — and leaves the whole state,
including the conversation history, unchanged; `add_conversation_turn`
while not running likewise leaves the state unchanged. -/
theorem spec_c10 (s : AnalysisService) (chatFn : List Message → Except String String)
    (n : Nat) (text : String) (speaker : Option Speaker) (conf : ℚ) (now : Nat) :
    (s.isRunning = false →
      s.generateSuggestion chatFn n = (none, s) ∧
      s.addConversationTurn text speaker conf now = s) ∧
    (s.suggestionGenerator = none → s.generateSuggestion chatFn n = (none, s)) ∧
    (none : Option Suggestion) ≠ some emptySuggestion := by
  refine ⟨?_, ?_, by simp⟩
  · intro h
    constructor
    · simp [AnalysisService.generateSuggestion, h]
    · simp [AnalysisService.addConversationTurn, h]
  · intro h
    by_cases hr : s.isRunning = true
    · simp [AnalysisService.generateSuggestion, hr, h]
    · simp only [Bool.not_eq_true] at hr
      simp [AnalysisService.generateSuggestion, hr]

theorem spec_c10_witness :
    (AnalysisService.init "openai" none none none (7 / 10) 2000 ⟨none, none, none, none⟩
        none).isRunning = false ∧
    (AnalysisService.init "openai" none none none (7 / 10) 2000 ⟨none, none, none, none⟩
        none).generateSuggestion (fun _ => Except.ok "x") 5
      = (none, AnalysisService.init "openai" none none none (7 / 10) 2000
          ⟨none, none, none, none⟩ none) := by
  refine ⟨rfl, ?_⟩
  exact ((spec_c10 (AnalysisService.init "openai" none none none (7 / 10) 2000
    ⟨none, none, none, none⟩ none) (fun _ => Except.ok "x") 5 "t" none 1 0).1 rfl).1

/-- Claim C8: calling `start()` on an already-running capability service is
rejected (`False`) and leaves the entire state — including the current
provider client — unchanged, for both the transcription and the analysis
service; after `stop()` then `start()` (with the underlying calls
succeeding) the service is running again and holds a freshly constructed
provider client built by the factory from the last-known configuration. -/
theorem spec_c8 (s : TranscriptionService) (a : AnalysisService)
    (connRes : Except String Bool) (c : STTClient) (d : LLMClient)
    (hs : s.isRunning = true) (ha : a.isRunning = true)
    (hc : sttFactoryCreate s.provider s.apiKey s.language s.model = Except.ok c)
    (hd : llmFactoryCreate a.llmProvider a.llmApiKey a.llmBaseUrl a.llmModel
        a.llmTemperature a.llmMaxTokens = Except.ok d) :
    s.start connRes = (false, s) ∧
    a.start = (false, a) ∧
    ((s.stop (Except.ok ())).2.start (Except.ok true)).1 = true ∧
    ((s.stop (Except.ok ())).2.start (Except.ok true)).2.isRunning = true ∧
    ((s.stop (Except.ok ())).2.start (Except.ok true)).2.sttClient = some c ∧
    (a.stop.2.start).1 = true ∧
    (a.stop.2.start).2.isRunning = true ∧
    (a.stop.2.start).2.llmClient = some d ∧
    (a.stop.2.start).2.suggestionGenerator
      = some ⟨a.scenarioConfig, a.analysisPrompt.getD defaultAnalysisPrompt⟩ := by
  have hstop : (s.stop (Except.ok ())).2
      = { s with sttClient := none, isRunning := false } := by
    unfold TranscriptionService.stop
    rw [if_neg (by simp [hs])]
    cases hcl : s.sttClient with
    | some cl => rfl
    | none => rfl
  have hstopA : a.stop.2
      = { a with llmClient := none, suggestionGenerator := none, isRunning := false } := by
    unfold AnalysisService.stop
    rw [if_neg (by simp [ha])]
  have hrestart : ((s.stop (Except.ok ())).2.start (Except.ok true))
      = (true, { s with sttClient := some c, isRunning := true }) := by
    rw [hstop]
    unfold TranscriptionService.start
    rw [if_neg (by simp)]
    show (match sttFactoryCreate s.provider s.apiKey s.language s.model with
      | Except.error _ => _
      | Except.ok client => _) = _
    rw [hc]
    rfl
  have hrestartA : (a.stop.2.start)
      = (true, { a with
          llmClient := some d,
          suggestionGenerator := some ⟨a.scenarioConfig,
            a.analysisPrompt.getD defaultAnalysisPrompt⟩,
          isRunning := true }) := by
    rw [hstopA]
    unfold AnalysisService.start
    rw [if_neg (by simp)]
    show (match llmFactoryCreate a.llmProvider a.llmApiKey a.llmBaseUrl a.llmModel
        a.llmTemperature a.llmMaxTokens with
      | Except.error _ => _
      | Except.ok client => _) = _
    rw [hd]
  refine ⟨?_, ?_, ?_, ?_, ?_, ?_, ?_, ?_, ?_⟩
  · unfold TranscriptionService.start
    rw [if_pos hs]
  · unfold AnalysisService.start
    rw [if_pos ha]
  · rw [hrestart]
  · rw [hrestart]
  · rw [hrestart]
  · rw [hrestartA]
  · rw [hrestartA]
  · rw [hrestartA]
  · rw [hrestartA]

theorem spec_c8_witness :
    (TranscriptionService.mk "elevenlabs" (some "k") "zh" none
        (some ⟨"ElevenLabsSTT", some "k", "zh", "eleven_multilingual_v2"⟩)
        true).start (Except.ok true)
      = (false, TranscriptionService.mk "elevenlabs" (some "k") "zh" none
          (some ⟨"ElevenLabsSTT", some "k", "zh", "eleven_multilingual_v2"⟩) true) ∧
    (AnalysisService.mk "openai" (some "k") none none (7 / 10) 2000
        ⟨none, none, none, none⟩ none
        (some ⟨"OpenAIClient", some "k", none, "gpt-4o", 7 / 10, 2000⟩)
        (ConversationAnalyzer.init 20)
        (some ⟨⟨none, none, none, none⟩, defaultAnalysisPrompt⟩) true).start
      = (false, AnalysisService.mk "openai" (some "k") none none (7 / 10) 2000
          ⟨none, none, none, none⟩ none
          (some ⟨"OpenAIClient", some "k", none, "gpt-4o", 7 / 10, 2000⟩)
          (ConversationAnalyzer.init 20)
          (some ⟨⟨none, none, none, none⟩, defaultAnalysisPrompt⟩) true) ∧
    (((TranscriptionService.mk "elevenlabs" (some "k") "zh" none
        (some ⟨"ElevenLabsSTT", some "k", "zh", "eleven_multilingual_v2"⟩)
        true).stop (Except.ok ())).2.start (Except.ok true)).2.sttClient
      = some ⟨"ElevenLabsSTT", some "k", "zh", "eleven_multilingual_v2"⟩ ∧
    ((AnalysisService.mk "openai" (some "k") none none (7 / 10) 2000
        ⟨none, none, none, none⟩ none
        (some ⟨"OpenAIClient", some "k", none, "gpt-4o", 7 / 10, 2000⟩)
        (ConversationAnalyzer.init 20)
        (some ⟨⟨none, none, none, none⟩, defaultAnalysisPrompt⟩)
        true).stop.2.start).2.llmClient
      = some ⟨"OpenAIClient", some "k", none, "gpt-4o", 7 / 10, 2000⟩ := by
  have h := spec_c8
    (TranscriptionService.mk "elevenlabs" (some "k") "zh" none
      (some ⟨"ElevenLabsSTT", some "k", "zh", "eleven_multilingual_v2"⟩) true)
    (AnalysisService.mk "openai" (some "k") none none (7 / 10) 2000
      ⟨none, none, none, none⟩ none
      (some ⟨"OpenAIClient", some "k", none, "gpt-4o", 7 / 10, 2000⟩)
      (ConversationAnalyzer.init 20)
      (some ⟨⟨none, none, none, none⟩, defaultAnalysisPrompt⟩) true)
    (Except.ok true)
    ⟨"ElevenLabsSTT", some "k", "zh", "eleven_multilingual_v2"⟩
    ⟨"OpenAIClient", some "k", none, "gpt-4o", 7 / 10, 2000⟩
    rfl rfl rfl rfl
  exact ⟨h.1, h.2.1, h.2.2.2.2.1, h.2.2.2.2.2.2.2.1⟩
